import Mathlib

/-! hello_favicon: the icon resolution pipeline of main.go

A shallow embedding of the icon resolution code of `main.go` (candidate
discovery, fetch with retry, format dispatch, fallback icon synthesis, and the
two resolution loops), followed by theorems about it.

Conventions of the embedding.

* A Go `string` is a Lean `String`; its bytes are its UTF-8 encoding
  (`goBytes`).  Prefix, suffix and substring tests on valid UTF-8 agree
  byte-wise and rune-wise, so they are written over the list of runes.
* Go `int` values are `Int`; `uint32` and `uint8` values are `Nat` with an
  explicit `% 2 ^ 32` or `% 256` at every operation that wraps.
* The standard library and third-party packages (`net/url`, `net/http`,
  `image`, `encoding/base64`, `oksvg`, `rasterx`) are not part of the
  repository.  They enter as parameters: `NetURL` for `net/url`, `Env` for the
  network and the decoders.  The outside world is a state `σ` that every
  request and every sleep may change.
* Diagnostics printed with `fmt.Printf` or `fmt.Println`, and
  `resp.Body.Close()`, have no influence on any returned value and are left
  out.
* Functions that talk to the world also return a ghost trace of what they did
  (`Event`), so that statements such as "is requested exactly three times" can
  be written down.
-/

namespace HelloFavicon

/-! ## Go strings -/

/-- The bytes of a Go string: the UTF-8 encoding of its runes. -/
def goBytes (s : String) : List UInt8 :=
  s.data.flatMap String.utf8EncodeChar

/-- Go `strings.HasPrefix(s, p)`. -/
def strings.HasPrefix (s p : String) : Bool :=
  p.data.isPrefixOf s.data

/-- Go `strings.HasSuffix(s, p)`. -/
def strings.HasSuffix (s p : String) : Bool :=
  p.data.isSuffixOf s.data

/-- Go `strings.Contains(s, substr)`: `substr` starts at some position of `s`. -/
def strings.Contains (s substr : String) : Bool :=
  s.data.tails.any (fun t => substr.data.isPrefixOf t)

/-- Go `unicode.ToLower` as far as this program can observe it.  The program
only compares lower-cased strings with ASCII literals.  Besides `A`–`Z`, the
only runes that `unicode.ToLower` sends to an ASCII letter are U+0130 (to `i`)
and U+212A (to `k`); every other rune is kept here, which changes no
comparison with an ASCII literal. -/
def unicode.ToLower (c : Char) : Char :=
  if c.toNat = 0x130 then 'i'
  else if c.toNat = 0x212A then 'k'
  else c.toLower

/-- Go `strings.ToLower(s)`, rune by rune. -/
def strings.ToLower (s : String) : String :=
  ⟨s.data.map unicode.ToLower⟩

/-- Go `strings.ToUpper(string(b))` for a single byte `b`, as far as the
program can observe it: the result is only compared with `"A"` and `"B"`, and
among the runes below 256 only `a`, `A` (resp. `b`, `B`) are sent there. -/
def strings.ToUpperByte (b : UInt8) : String :=
  String.singleton (Char.ofNat b.toNat).toUpper

/-- Go `strings.SplitN(s, ",", 2)`: at most two parts, cut at the first comma. -/
def strings.SplitN2 (s : String) : List String :=
  match s.data.span (fun c => c != ',') with
  | (before, []) => [⟨before⟩]
  | (before, _ :: after) => [⟨before⟩, ⟨after⟩]

/-- The values `lo, lo+1, ..., hi` taken by the counter of a Go loop
`for v := lo; v <= hi; v++` (none when `hi < lo`). -/
def intRange (lo hi : Int) : List Int :=
  (List.range (hi + 1 - lo).toNat).map (fun (k : Nat) => lo + (k : Int))

/-! ## `removeDuplicates` (main.go 273–285) -/

/-- One iteration of the loop of `removeDuplicates`: `seen` is the Go map
`map[string]bool` (a missing key reads as `false`), `result` the output so far. -/
def removeDuplicates.step (st : (String → Bool) × List String) (url : String) :
    (String → Bool) × List String :=
  if !st.1 url then
    (fun k => if k = url then true else st.1 k, st.2 ++ [url])
  else st

/-- `removeDuplicates(urls)`. -/
def removeDuplicates (urls : List String) : List String :=
  (urls.foldl removeDuplicates.step (fun _ => false, [])).2

/-! ## `net/url` as a parameter, and `makeAbsoluteURL` (main.go 257–270) -/

/-- The part of Go's `net/url` that the program uses. -/
structure NetURL where
  /-- The type `*url.URL`. -/
  URL : Type
  /-- The function `url.Parse`; `none` is a parse error. -/
  Parse : String → Option URL
  /-- The method `(*URL).IsAbs`. -/
  IsAbs : URL → Bool
  /-- The method `(*URL).String`. -/
  Render : URL → String
  /-- The method `(*URL).ResolveReference`: `ResolveReference base ref`. -/
  ResolveReference : URL → URL → URL
  /-- The method `(*URL).Hostname`. -/
  Hostname : URL → String

/-- `makeAbsoluteURL(urlStr, baseURL)`; the empty string means "invalid". -/
def makeAbsoluteURL (lib : NetURL) (urlStr : String) (baseURL : lib.URL) : String :=
  if urlStr = "" then ""
  else
    match lib.Parse urlStr with
    | none => ""
    | some candidateURL =>
      if lib.IsAbs candidateURL then lib.Render candidateURL
      else lib.Render (lib.ResolveReference baseURL candidateURL)

/-! ## `findFavicons` (main.go 218–254) -/

/-- A `link` element of the parsed page: the result of `s.Attr("rel")` and of
`s.Attr("href")` (`none` when the attribute is absent). -/
structure Selection where
  rel : Option String
  href : Option String
deriving DecidableEq, Repr

/-- The parsed page as `findFavicons` sees it: the elements matched by
`doc.Find("link")`, in document order. -/
structure Document where
  links : List Selection
deriving DecidableEq, Repr

/-- The relation test of `findFavicons` on the lower-cased `rel` attribute. -/
def findFavicons.isIconRel (rel : String) : Bool :=
  rel == "icon" || rel == "shortcut icon" || rel == "apple-touch-icon" ||
    rel == "apple-touch-icon-precomposed" || strings.Contains rel "icon"

/-- The callback of `doc.Find("link").Each` in `findFavicons`. -/
def findFavicons.visit (faviconCandidates : List String) (s : Selection) : List String :=
  let rel := strings.ToLower (s.rel.getD "")
  if findFavicons.isIconRel rel then
    match s.href with
    | some href => if href != "" then faviconCandidates ++ [href] else faviconCandidates
    | none => faviconCandidates
  else faviconCandidates

/-- The value of `faviconCandidates` after the scan of the `link` elements
(main.go 219–232): the non-empty `href` of every icon-relation link, in
document order. -/
def findFavicons.linkHrefs (doc : Document) : List String :=
  doc.links.foldl findFavicons.visit []

/-- The conversion loop of `findFavicons` (main.go 244–250). -/
def findFavicons.absolutize (lib : NetURL) (baseURL : lib.URL)
    (absoluteURLs : List String) (candidate : String) : List String :=
  let absoluteURL := makeAbsoluteURL lib candidate baseURL
  if absoluteURL != "" then absoluteURLs ++ [absoluteURL] else absoluteURLs

/-- `findFavicons(doc, baseURL)`. -/
def findFavicons (lib : NetURL) (doc : Document) (baseURL : lib.URL) : List String :=
  let faviconCandidates := findFavicons.linkHrefs doc
  let commonPaths := ["/favicon.ico"]
  let faviconCandidates :=
    commonPaths.foldl (fun acc path => acc ++ [path]) faviconCandidates
  let absoluteURLs := faviconCandidates.foldl (findFavicons.absolutize lib baseURL) []
  removeDuplicates absoluteURLs

/-! ## Bitmaps -/

/-- Go `color.RGBA`: four `uint8` channels. -/
structure RGBA where
  R : Nat
  G : Nat
  B : Nat
  A : Nat
deriving DecidableEq, Repr

/-- A bitmap with bounds `image.Rect(0, 0, width, height)`; `pix x y` is
`At(x, y)`.  Images decoded by the libraries use the same type. -/
structure Image where
  width : Int
  height : Int
  pix : Int → Int → RGBA

/-- Go `image.NewRGBA(image.Rect(0, 0, w, h))`: every pixel is zero. -/
def image.NewRGBA (w h : Int) : Image :=
  ⟨w, h, fun _ _ => ⟨0, 0, 0, 0⟩⟩

/-- Go `image.Point{x, y}.In(img.Rect)`. -/
def Image.inBounds (img : Image) (x y : Int) : Bool :=
  decide (0 ≤ x) && decide (x < img.width) && decide (0 ≤ y) && decide (y < img.height)

/-- Go `(*image.RGBA).Set(x, y, c)` for a `color.RGBA` value `c`: nothing
happens when the point is outside the bounds. -/
def Image.Set (img : Image) (x y : Int) (c : RGBA) : Image :=
  if img.inBounds x y then
    { img with pix := fun x1 y1 => if x1 = x ∧ y1 = y then c else img.pix x1 y1 }
  else img

/-- Go `draw.Draw(img, img.Bounds(), &image.Uniform{c}, image.Point{}, draw.Src)`. -/
def draw.fill (img : Image) (c : RGBA) : Image :=
  { img with pix := fun x y => if img.inBounds x y then c else img.pix x y }

/-! ## `drawInitial` (main.go 480–514) -/

/-- `drawInitial(img, initial, centerX, centerY, color)`; Go integer division
truncates, which is `Int.tdiv`. -/
def drawInitial (img : Image) (initial : String) (centerX centerY : Int) (color : RGBA) :
    Image :=
  let size : Int := 20
  if initial = "A" then
    (intRange ((-size).tdiv 2) (size.tdiv 2)).foldl (fun img i =>
      (intRange ((-size).tdiv 2) (size.tdiv 2)).foldl (fun img j =>
        if (i == j * 2 || i == -j * 2) ||
            (j == 0 && decide (i ≥ (-size).tdiv 4) && decide (i ≤ size.tdiv 4)) then
          img.Set (centerX + i) (centerY + j) color
        else img) img) img
  else if initial = "B" then
    (intRange ((-size).tdiv 2) (size.tdiv 2)).foldl (fun img i =>
      (intRange ((-size).tdiv 2) (size.tdiv 2)).foldl (fun img j =>
        if i == (-size).tdiv 2 || j == (-size).tdiv 2 || j == size.tdiv 2 || j == 0 ||
            (i == size.tdiv 2 &&
              (decide (j > (-size).tdiv 2) && decide (j < 0) ||
                decide (j > 0) && decide (j < size.tdiv 2))) then
          img.Set (centerX + i) (centerY + j) color
        else img) img) img
  else
    (intRange ((-size).tdiv 2) (size.tdiv 2)).foldl (fun img i =>
      (img.Set (centerX + i) centerY color).Set centerX (centerY + i) color) img

/-! ## `generateDomainIcon` (main.go 425–477) -/

/-- The hash loop (main.go 430–433) over the bytes of the domain, in `uint32`. -/
def generateDomainIcon.hashBytes (bs : List UInt8) : Nat :=
  bs.foldl (fun hash b => (hash * 31 + b.toNat) % 2 ^ 32) 0

/-- The value of `hash` after the loop. -/
def generateDomainIcon.hash (domain : String) : Nat :=
  generateDomainIcon.hashBytes (goBytes domain)

/-- The value of `bgColor` (main.go 436–445); the conversions to `uint8` and
the `uint8` additions are the `% 256`. -/
def generateDomainIcon.bgColor (domain : String) : RGBA :=
  let hash := generateDomainIcon.hash domain
  let r := ((hash >>> 16) % 200) % 256
  let g := ((hash >>> 8) % 200) % 256
  let b := (hash % 200) % 256
  let r := (r + 55) % 256
  let g := (g + 55) % 256
  let b := (b + 55) % 256
  ⟨r, g, b, 255⟩

/-- The value of `textColor` (main.go 446). -/
def generateDomainIcon.textColor : RGBA :=
  ⟨255, 255, 255, 255⟩

/-- The value of `initial` (main.go 452–456): `strings.Split(domain, ".")`
cuts the bytes at every `.` (byte 46). -/
def generateDomainIcon.initial (domain : String) : String :=
  match (goBytes domain).splitOn 46 with
  | (b :: _) :: _ => strings.ToUpperByte b
  | _ => "?"

/-- `generateDomainIcon(domain)`. -/
def generateDomainIcon (domain : String) : Image :=
  let img := image.NewRGBA 128 128
  let bgColor := generateDomainIcon.bgColor domain
  let textColor := generateDomainIcon.textColor
  let img := draw.fill img bgColor
  let initial := generateDomainIcon.initial domain
  let centerX := img.width.tdiv 2
  let centerY := img.height.tdiv 2
  let radius := img.width.tdiv 4
  let img :=
    (intRange (centerY - radius) (centerY + radius)).foldl (fun img y =>
      (intRange (centerX - radius) (centerX + radius)).foldl (fun img x =>
        let dx := x - centerX
        let dy := y - centerY
        if dx * dx + dy * dy ≤ radius * radius then img.Set x y textColor else img) img) img
  drawInitial img initial centerX centerY bgColor

/-- The invariant of the drawing steps of `generateDomainIcon` for background
colour `bg`: the bitmap is 128×128 and every pixel of the canvas is either of
colour `bg`, or white and inside the disc of radius 32 around (64, 64). -/
def generateDomainIcon.Painted (bg : RGBA) (im : Image) : Prop :=
  im.width = 128 ∧ im.height = 128 ∧
    ∀ x y : Int, 0 ≤ x → x < 128 → 0 ≤ y → y < 128 →
      (im.pix x y = bg ∨
        (im.pix x y = generateDomainIcon.textColor ∧ (x - 64) ^ 2 + (y - 64) ^ 2 ≤ 32 ^ 2))

/-! ## The proxy function of `httpClient` (main.go 49–61) -/

/-- The value of `proxyURL` after the loop over `HTTPS_PROXY`, `HTTP_PROXY`
(main.go 50–56); `getenv` is `os.Getenv`, which returns `""` for an unset
variable. -/
def httpClient.proxyURL (getenv : String → String) : String :=
  ["HTTPS_PROXY", "HTTP_PROXY"].foldl (fun proxyURL env =>
    let proxy := getenv env
    if proxy != "" then proxy else proxyURL) ""

/-- The `Proxy` function of `httpClient`: `none` is "no proxy" (`nil, nil`),
`some r` is the result `r` of `url.Parse(proxyURL)`. -/
def httpClient.Proxy (lib : NetURL) (getenv : String → String) : Option (Option lib.URL) :=
  let proxyURL := httpClient.proxyURL getenv
  if proxyURL != "" then some (lib.Parse proxyURL) else none

/-! ## The network and the decoders as parameters -/

/-- What the program reads from an `*http.Response`: the status code, the
`Content-Type` header, and the result of `io.ReadAll(resp.Body)` (`none` when
reading fails). -/
structure Response where
  StatusCode : Int
  ContentType : String
  Body : Option (List UInt8)
deriving DecidableEq, Repr

/-- The outcome of `httpClient.Do(req)`: a transport error or a response. -/
inductive DoResult where
  | err (e : String)
  | resp (r : Response)
deriving DecidableEq, Repr

/-- An attempt failed when it ended in a transport error or a status other
than 200. -/
def DoResult.failed : DoResult → Bool
  | .err _ => true
  | .resp r => r.StatusCode != 200

/-- Ghost record of the observable actions of a run. -/
inductive Event where
  /-- A call of `httpClient.Do` for a GET of `url`, with its outcome. -/
  | request (url : String) (outcome : DoResult)
  /-- A call of `time.Sleep(d)`, `d` in nanoseconds. -/
  | sleep (d : Nat)
  /-- A call of `renderSVGToImage(data)`, the vector rasterizer. -/
  | renderSVG (data : List UInt8)
  /-- A call of `image.DecodeConfig` on `data`. -/
  | decodeConfig (data : List UInt8)
  /-- A call of `image.Decode` on `data`. -/
  | decode (data : List UInt8)
deriving DecidableEq, Repr

/-- The outcomes of the requests of a trace, in order. -/
def requestsOf : List Event → List DoResult
  | [] => []
  | .request _ o :: t => o :: requestsOf t
  | _ :: t => requestsOf t

/-- The durations of the `time.Sleep` calls of a trace, in order. -/
def sleepsOf : List Event → List Nat
  | [] => []
  | .sleep d :: t => d :: sleepsOf t
  | _ :: t => sleepsOf t

/-- The world outside the program, with state `σ`, and the library decoders. -/
structure Env (σ : Type) where
  /-- The error of `http.NewRequest("GET", url, nil)`, if any. -/
  NewRequest : String → Option String
  /-- The call `httpClient.Do(req)` for a GET of the given URL. -/
  Do : String → σ → DoResult × σ
  /-- The call `time.Sleep(d)`. -/
  Sleep : Nat → σ → σ
  /-- The call `base64.StdEncoding.DecodeString`; `none` is an error. -/
  base64Decode : String → Option (List UInt8)
  /-- The format returned by `image.DecodeConfig` (`""` on error). -/
  DecodeConfig : List UInt8 → String
  /-- The call `image.Decode`; `none` is an error. -/
  Decode : List UInt8 → Option Image
  /-- The function `renderSVGToImage` (main.go 405–422), which only calls
  `oksvg` and `rasterx` on floating-point sizes; `none` is an error. -/
  renderSVGToImage : List UInt8 → Option Image

/-- The result of a run: the returned value, the world afterwards, and the
trace of the run. -/
structure Run (σ : Type) (α : Type) where
  val : α
  world : σ
  trace : List Event

/-- The errors that `fetchWithRetry` returns. -/
inductive FetchError where
  /-- The error "failed to create request: e". -/
  | createRequest (e : String)
  /-- The transport error `e` itself, as stored in `lastErr`. -/
  | transport (e : String)
  /-- The error "所有重试都失败了: e" (all retries failed), wrapping transport error `e`. -/
  | allRetriesFailed (e : String)
  /-- The error "服务器返回状态码: code" (server returned status code). -/
  | statusCode (code : Int)
deriving DecidableEq, Repr

/-- The error that `fetchWithRetry` returns when `o` is the outcome of its
last attempt and that attempt failed. -/
def FetchError.ofLast : DoResult → FetchError
  | .err e => .allRetriesFailed e
  | .resp r => .statusCode r.StatusCode

/-! ## `fetchWithRetry` (main.go 288–328) -/

/-- The loop of `fetchWithRetry` over the remaining values of `attempt`;
the result is the pair `(resp, err)`. -/
def fetchWithRetry.loop {σ : Type} (env : Env σ) (targetURL : String) (maxRetries : Int)
    (retryDelay : Nat) :
    List Int → Option FetchError → σ → Run σ (Option Response × Option FetchError)
  | [], lastErr, w => ⟨(none, lastErr), w, []⟩
  | attempt :: rest, _, w =>
    match env.NewRequest targetURL with
    | some e => ⟨(none, some (.createRequest e)), w, []⟩
    | none =>
      match env.Do targetURL w with
      | (.err e, w1) =>
        if attempt < maxRetries then
          let k := fetchWithRetry.loop env targetURL maxRetries retryDelay rest
            (some (.transport e)) (env.Sleep retryDelay w1)
          ⟨k.val, k.world, .request targetURL (.err e) :: .sleep retryDelay :: k.trace⟩
        else
          ⟨(none, some (.allRetriesFailed e)), w1, [.request targetURL (.err e)]⟩
      | (.resp resp, w1) =>
        if resp.StatusCode != 200 then
          if attempt < maxRetries then
            let k := fetchWithRetry.loop env targetURL maxRetries retryDelay rest
              (some (.statusCode resp.StatusCode)) (env.Sleep retryDelay w1)
            ⟨k.val, k.world, .request targetURL (.resp resp) :: .sleep retryDelay :: k.trace⟩
          else
            ⟨(none, some (.statusCode resp.StatusCode)), w1, [.request targetURL (.resp resp)]⟩
        else
          ⟨(some resp, none), w1, [.request targetURL (.resp resp)]⟩

/-- `fetchWithRetry(targetURL, maxRetries, retryDelay)`, run in world `w`. -/
def fetchWithRetry {σ : Type} (env : Env σ) (targetURL : String) (maxRetries : Int)
    (retryDelay : Nat) (w : σ) : Run σ (Option Response × Option FetchError) :=
  fetchWithRetry.loop env targetURL maxRetries retryDelay (intRange 0 maxRetries) none w

/-- The world in which attempt number `k` (counted from 0) of a run of
`fetchWithRetry` started in world `w` calls `httpClient.Do`, as long as the
attempts before it failed: attempt 0 runs in `w`, and each later attempt runs
in the world left by the previous `httpClient.Do` followed by
`time.Sleep(retryDelay)`. -/
def fetchWithRetry.attemptWorld {σ : Type} (env : Env σ) (targetURL : String)
    (retryDelay : Nat) (w : σ) : Nat → σ
  | 0 => w
  | k + 1 =>
    env.Sleep retryDelay
      (env.Do targetURL (fetchWithRetry.attemptWorld env targetURL retryDelay w k)).2

/-- The outcome that `httpClient.Do` gives to attempt number `k`. -/
def fetchWithRetry.outcome {σ : Type} (env : Env σ) (targetURL : String)
    (retryDelay : Nat) (w : σ) (k : Nat) : DoResult :=
  (env.Do targetURL (fetchWithRetry.attemptWorld env targetURL retryDelay w k)).1

/-! ## `fetchAndDecodeImage` (main.go 331–402) -/

/-- The test that sends the fetched bytes to the vector rasterizer
(main.go 377). -/
def fetchAndDecodeImage.isSVG (contentType imageURL : String) : Bool :=
  strings.Contains contentType "image/svg+xml" ||
    strings.HasSuffix (strings.ToLower imageURL) ".svg"

/-- `fetchAndDecodeImage(imageURL)`, run in world `w`; `none` is the result
`(nil, false)` and `some img` is `(img, true)`. -/
def fetchAndDecodeImage {σ : Type} (env : Env σ) (imageURL : String) (w : σ) :
    Run σ (Option Image) :=
  if strings.HasPrefix imageURL "data:image/" then
    match strings.SplitN2 imageURL with
    | [_, base64Data] =>
      match env.base64Decode base64Data with
      | none => ⟨none, w, []⟩
      | some imgData =>
        match env.Decode imgData with
        | none => ⟨none, w, [.decode imgData]⟩
        | some img => ⟨some img, w, [.decode imgData]⟩
    | _ => ⟨none, w, []⟩
  else
    let f := fetchWithRetry env imageURL 2 1000000000 w
    match f.val with
    | (_, some _) => ⟨none, f.world, f.trace⟩
    | (none, none) => ⟨none, f.world, f.trace⟩
    | (some resp, none) =>
      match resp.Body with
      | none => ⟨none, f.world, f.trace⟩
      | some imgData =>
        if fetchAndDecodeImage.isSVG resp.ContentType imageURL then
          match env.renderSVGToImage imgData with
          | none => ⟨none, f.world, f.trace ++ [.renderSVG imgData]⟩
          | some svgImg => ⟨some svgImg, f.world, f.trace ++ [.renderSVG imgData]⟩
        else
          let format := env.DecodeConfig imgData
          if !(format == "png" || format == "jpeg" || format == "ico") then
            ⟨none, f.world, f.trace ++ [.decodeConfig imgData]⟩
          else
            match env.Decode imgData with
            | none => ⟨none, f.world, f.trace ++ [.decodeConfig imgData, .decode imgData]⟩
            | some img =>
              ⟨some img, f.world, f.trace ++ [.decodeConfig imgData, .decode imgData]⟩

/-! ## The resolution loop of `getFavicon` (main.go 168–188) -/

/-- The state of the resolution part of `getFavicon`: the variables `img`,
`faviconURL`, `success`, the world, and the ghost list of the calls of
`fetchAndDecodeImage` that were made, each with the URL and the returned
`success`. -/
structure Resolution (σ : Type) where
  img : Option Image
  faviconURL : String
  success : Bool
  world : σ
  calls : List (String × Bool)

/-- The loop `for _, url := range faviconURLs` of `getFavicon`
(main.go 176–182) from the current values of the variables. -/
def getFavicon.tryCandidates {σ : Type} (env : Env σ) :
    List String → Option Image → String → Bool → σ → Resolution σ
  | [], img, faviconURL, success, w => ⟨img, faviconURL, success, w, []⟩
  | url :: rest, _, faviconURL, _, w =>
    let r := fetchAndDecodeImage env url w
    match r.val with
    | some img => ⟨some img, url, true, r.world, [(url, true)]⟩
    | none =>
      let k := getFavicon.tryCandidates env rest none faviconURL false r.world
      { k with calls := (url, false) :: k.calls }

/-- Lines 171–188 of `getFavicon` for a candidate list `faviconURLs` and the
host name `hostname` of the page: the loop, then the fallback. -/
def getFavicon.resolveFrom {σ : Type} (env : Env σ) (hostname : String)
    (faviconURLs : List String) (w : σ) : Resolution σ :=
  let r := getFavicon.tryCandidates env faviconURLs none "" false w
  if !r.success then
    { r with img := some (generateDomainIcon hostname), faviconURL := "generated" }
  else r

/-- Lines 168–188 of `getFavicon`: discovery, the loop, the fallback. -/
def getFavicon.resolve {σ : Type} (lib : NetURL) (env : Env σ) (doc : Document)
    (parsedURL : lib.URL) (w : σ) : Resolution σ :=
  getFavicon.resolveFrom env (lib.Hostname parsedURL) (findFavicons lib doc parsedURL) w

/-! ## The resolution loop of `getWebsiteInfoByQuery` (main.go 589–607) -/

/-- The state of the resolution part of `getWebsiteInfoByQuery`: the variable
`faviconURL`, the world, and the ghost list of calls as in `Resolution`. -/
structure QueryResolution (σ : Type) where
  faviconURL : String
  world : σ
  calls : List (String × Bool)

/-- The loop `for _, url := range faviconURLs` of `getWebsiteInfoByQuery`
(main.go 595–601). -/
def getWebsiteInfoByQuery.tryCandidates {σ : Type} (env : Env σ) :
    List String → String → σ → QueryResolution σ
  | [], faviconURL, w => ⟨faviconURL, w, []⟩
  | url :: rest, faviconURL, w =>
    let r := fetchAndDecodeImage env url w
    match r.val with
    | some _ => ⟨url, r.world, [(url, true)]⟩
    | none =>
      let k := getWebsiteInfoByQuery.tryCandidates env rest faviconURL r.world
      { k with calls := (url, false) :: k.calls }

/-- Lines 589–607 of `getWebsiteInfoByQuery`: discovery, the loop, and the
fixed address used when nothing decoded. -/
def getWebsiteInfoByQuery.resolve {σ : Type} (lib : NetURL) (env : Env σ) (doc : Document)
    (parsedURL : lib.URL) (w : σ) : QueryResolution σ :=
  let faviconURLs := findFavicons lib doc parsedURL
  let r :=
    if faviconURLs.length > 0 then getWebsiteInfoByQuery.tryCandidates env faviconURLs "" w
    else ⟨"", w, []⟩
  if r.faviconURL = "" then
    { r with faviconURL := "http://127.0.0.1:3000/static/favicon.svg" }
  else r

/-! ## Readings of the specification, for comparison with the code -/

/-- The background colour as the specification words it: each channel is one
byte of the hash (bits 16–23, bits 8–15, bits 0–7) modulo 200, plus 55. -/
def spec.byteSliceColor (h : Nat) : RGBA :=
  ⟨((h >>> 16) % 256) % 200 + 55, ((h >>> 8) % 256) % 200 + 55, (h % 256) % 200 + 55, 255⟩

/-- The path of a URL as the specification words it: the URL without its
query string and its fragment, that is, up to the first `?` or `#`. -/
def spec.urlPath (imageURL : String) : String :=
  ⟨imageURL.data.takeWhile (fun c => c != '?' && c != '#')⟩

/-- The vector test as the specification words it: the content type contains
the vector media type, or the URL path ends in `.svg` in any letter case. -/
def spec.isVector (contentType imageURL : String) : Bool :=
  strings.Contains contentType "image/svg+xml" ||
    strings.HasSuffix (strings.ToLower (spec.urlPath imageURL)) ".svg"

/-! ## Concrete inputs -/

/-- A small instance of `NetURL` for concrete evaluations: a URL is its text,
every text parses, a reference is absolute when it contains `://`, resolving a
reference appends it to the base, and the host name is the text between `//`
and the next `/`. -/
def demo.netURL : NetURL where
  URL := String
  Parse := fun s => some s
  IsAbs := fun u => strings.Contains u "://"
  Render := fun u => u
  ResolveReference := fun base ref => base ++ ref
  Hostname := fun u => ⟨((u.data.dropWhile (fun c => c != '/')).drop 2).takeWhile (fun c => c != '/')⟩

/-- A page with two icon links and one style sheet link. -/
def demo.page : Document :=
  ⟨[⟨some "Shortcut Icon", some "/a.png"⟩, ⟨some "stylesheet", some "/s.css"⟩,
    ⟨some "apple-touch-icon", some "https://cdn.example.com/b.png"⟩]⟩

/-- A page without any `link` element. -/
def demo.emptyPage : Document :=
  ⟨[]⟩

/-- An environment in which both proxy variables are set. -/
def demo.getenvBoth (name : String) : String :=
  if name = "HTTPS_PROXY" then "http://secure-proxy:8443"
  else if name = "HTTP_PROXY" then "http://plain-proxy:8080"
  else ""

/-- The decoders of the concrete worlds below: every base64 text is invalid,
no byte sequence has a known image format, and no image or vector document
decodes. -/
def demo.env (Do : String → Nat → DoResult × Nat) : Env Nat where
  NewRequest := fun _ => none
  Do := Do
  Sleep := fun _ w => w
  base64Decode := fun _ => none
  DecodeConfig := fun _ => ""
  Decode := fun _ => none
  renderSVGToImage := fun _ => none

/-- A world whose state counts the requests and in which every request is
answered with status 503. -/
def demo.env503 : Env Nat :=
  demo.env (fun _ w => (.resp ⟨503, "text/html", some []⟩, w + 1))

/-- A world in which every request is answered with status 200, content type
`image/png` and an empty body. -/
def demo.envPng : Env Nat :=
  demo.env (fun _ w => (.resp ⟨200, "image/png", some []⟩, w + 1))

/-- A world in which every image decodes (to a 1×1 black bitmap): requests for
a URL containing `b.png` are answered with status 200 and a PNG body, all
other requests with status 404. -/
def demo.envSecond : Env Nat where
  NewRequest := fun _ => none
  Do := fun url w =>
    if strings.Contains url "b.png" then (.resp ⟨200, "image/png", some [137, 80]⟩, w + 1)
    else (.resp ⟨404, "text/html", some []⟩, w + 1)
  Sleep := fun _ w => w
  base64Decode := fun _ => none
  DecodeConfig := fun _ => "png"
  Decode := fun _ => some ⟨1, 1, fun _ _ => ⟨0, 0, 0, 255⟩⟩
  renderSVGToImage := fun _ => none

/-- A world in which every request is answered with status 200, content type
`image/svg+xml` and the one-byte body `<`. -/
def demo.envSvg : Env Nat :=
  demo.env (fun _ w => (.resp ⟨200, "image/svg+xml", some [60]⟩, w + 1))

/-! # Theorems -/

/-! ## `removeDuplicates` -/

theorem removeDuplicates.fold_spec (l : List String) :
    ∀ (seen : String → Bool) (res : List String),
      (∀ k, seen k = true ↔ k ∈ res) →
      ∃ t, (l.foldl removeDuplicates.step (seen, res)).2 = res ++ t ∧ t.Nodup ∧
        (∀ s, s ∈ t ↔ s ∈ l ∧ s ∉ res) ∧ t.Sublist l ∧
        t.Pairwise (fun a b => l.indexOf a < l.indexOf b) := by
  induction l with
  | nil =>
    intro seen res _
    exact ⟨[], by simp⟩
  | cons a l ih =>
    intro seen res hinv
    by_cases ha : a ∈ res
    · have hs : seen a = true := (hinv a).2 ha
      obtain ⟨t, h1, h2, h3, h4, h5⟩ := ih seen res hinv
      refine ⟨t, ?_, h2, ?_, h4.cons a, ?_⟩
      · simpa [List.foldl_cons, removeDuplicates.step, hs] using h1
      · intro s
        rw [h3 s]
        constructor
        · rintro ⟨hl, hr⟩
          exact ⟨List.mem_cons_of_mem _ hl, hr⟩
        · rintro ⟨hl, hr⟩
          rcases List.mem_cons.1 hl with rfl | hl
          · exact absurd ha hr
          · exact ⟨hl, hr⟩
      · refine h5.imp_of_mem ?_
        intro x y hx hy hxy
        have hxa : x ≠ a := fun h => ((h3 x).1 hx).2 (h ▸ ha)
        have hya : y ≠ a := fun h => ((h3 y).1 hy).2 (h ▸ ha)
        rw [List.indexOf_cons_ne _ hxa.symm, List.indexOf_cons_ne _ hya.symm]
        exact Nat.succ_lt_succ hxy
    · have hs : seen a = false := by
        cases h : seen a with
        | false => rfl
        | true => exact absurd ((hinv a).1 h) ha
      have hinv2 : ∀ k, (fun k => if k = a then true else seen k) k = true ↔ k ∈ res ++ [a] := by
        intro k
        by_cases hk : k = a
        · simp [hk]
        · simp [hk, hinv k]
      obtain ⟨t, h1, h2, h3, h4, h5⟩ := ih _ (res ++ [a]) hinv2
      refine ⟨a :: t, ?_, ?_, ?_, h4.cons₂ a, ?_⟩
      · simpa [List.foldl_cons, removeDuplicates.step, hs] using h1
      · refine List.nodup_cons.2 ⟨?_, h2⟩
        intro hat
        exact ((h3 a).1 hat).2 (by simp)
      · intro s
        by_cases hsa : s = a
        · subst hsa
          simp [ha]
        · simp [hsa, h3 s]
      · have hne : ∀ x ∈ t, x ≠ a := by
          intro x hx h
          exact ((h3 x).1 hx).2 (by simp [h])
        refine List.pairwise_cons.2 ⟨?_, ?_⟩
        · intro x hx
          rw [List.indexOf_cons_self, List.indexOf_cons_ne _ (hne x hx).symm]
          exact Nat.succ_pos _
        · refine h5.imp_of_mem ?_
          intro x y hx hy hxy
          rw [List.indexOf_cons_ne _ (hne x hx).symm, List.indexOf_cons_ne _ (hne y hy).symm]
          exact Nat.succ_lt_succ hxy

/-- The output of `removeDuplicates`: no repetition, the elements of the
input, in order of first occurrence, as a subsequence of the input. -/
theorem removeDuplicates.spec (urls : List String) :
    (removeDuplicates urls).Nodup ∧
      (∀ s, s ∈ removeDuplicates urls ↔ s ∈ urls) ∧
      (removeDuplicates urls).Pairwise (fun a b => urls.indexOf a < urls.indexOf b) ∧
      (removeDuplicates urls).Sublist urls := by
  obtain ⟨t, h1, h2, h3, h4, h5⟩ :=
    removeDuplicates.fold_spec urls (fun _ => false) [] (by simp)
  have ht : removeDuplicates urls = t := by simpa [removeDuplicates] using h1
  rw [ht]
  exact ⟨h2, fun s => by simpa using h3 s, h5, h4⟩

/-- A list without repetition is returned unchanged. -/
theorem removeDuplicates.eq_self_of_nodup (urls : List String) (hnd : urls.Nodup) :
    removeDuplicates urls = urls := by
  obtain ⟨_, hmem, _, hsub⟩ := removeDuplicates.spec urls
  refine hsub.eq_of_length_le ?_
  exact (List.subperm_of_subset hnd (fun s hs => (hmem s).2 hs)).length_le

/-- C6. `removeDuplicates` returns a list without repetition that has exactly
the elements of its input, ordered by first occurrence in the input; it is a
subsequence of the input, and it returns the input itself exactly when the
input has no repetition. -/
theorem removeDuplicates_stable (urls : List String) :
    (removeDuplicates urls).Nodup ∧
      (∀ s, s ∈ removeDuplicates urls ↔ s ∈ urls) ∧
      (removeDuplicates urls).Pairwise (fun a b => urls.indexOf a < urls.indexOf b) ∧
      (removeDuplicates urls).Sublist urls ∧
      (removeDuplicates urls = urls ↔ urls.Nodup) := by
  obtain ⟨h1, h2, h3, h4⟩ := removeDuplicates.spec urls
  refine ⟨h1, h2, h3, h4, ?_⟩
  constructor
  · intro h
    exact h ▸ h1
  · exact removeDuplicates.eq_self_of_nodup urls

/-! ## `findFavicons` -/

/-- The scan of the `link` elements keeps, in document order, the `href` of
every link whose lower-cased `rel` passes the relation test and whose `href`
is present and not empty. -/
theorem findFavicons.linkHrefs_eq_filterMap (doc : Document) :
    findFavicons.linkHrefs doc =
      doc.links.filterMap (fun s =>
        if findFavicons.isIconRel (strings.ToLower (s.rel.getD "")) then
          s.href.filter (fun href => href != "")
        else none) := by
  have key : ∀ (l : List Selection) (acc : List String),
      l.foldl findFavicons.visit acc =
        acc ++ l.filterMap (fun s =>
          if findFavicons.isIconRel (strings.ToLower (s.rel.getD "")) then
            s.href.filter (fun href => href != "")
          else none) := by
    intro l
    induction l with
    | nil => intro acc; simp
    | cons s l ih =>
      intro acc
      rw [List.foldl_cons, ih]
      unfold findFavicons.visit
      by_cases hrel : findFavicons.isIconRel (strings.ToLower (s.rel.getD "")) = true
      · cases hh : s.href with
        | none => simp [hrel, hh, List.filterMap_cons]
        | some href =>
          by_cases he : href = ""
          · simp [hrel, hh, he, List.filterMap_cons, Option.filter]
          · simp [hrel, hh, he, List.filterMap_cons, Option.filter]
      · simp [hrel, List.filterMap_cons]
  simpa [findFavicons.linkHrefs] using key doc.links []

theorem findFavicons.absolutize_fold (lib : NetURL) (baseURL : lib.URL) (l : List String) :
    ∀ acc : List String,
      l.foldl (findFavicons.absolutize lib baseURL) acc =
        acc ++ (l.map (fun c => makeAbsoluteURL lib c baseURL)).filter (fun u => u != "") := by
  induction l with
  | nil => intro acc; simp
  | cons c l ih =>
    intro acc
    rw [List.foldl_cons, ih]
    unfold findFavicons.absolutize
    by_cases h : makeAbsoluteURL lib c baseURL = ""
    · simp [h]
    · simp [h]

/-- The list that `findFavicons` returns: the valid absolute forms of the
link targets and of `/favicon.ico`, in that order, without repetition. -/
theorem findFavicons.eq_removeDuplicates (lib : NetURL) (doc : Document) (baseURL : lib.URL) :
    findFavicons lib doc baseURL =
      removeDuplicates
        (((findFavicons.linkHrefs doc ++ ["/favicon.ico"]).map
          (fun c => makeAbsoluteURL lib c baseURL)).filter (fun u => u != "")) := by
  unfold findFavicons
  simp only [List.foldl_cons, List.foldl_nil]
  rw [findFavicons.absolutize_fold]
  simp

/-- C5. When the icon-relation links with a non-empty `href` resolve, in
document order, to valid pairwise distinct URLs `us`, all different from the
valid resolution `f` of `/favicon.ico`, then `findFavicons` returns `us`
followed by `f`; the list is not empty and ends with `f`. -/
theorem findFavicons_priority (lib : NetURL) (doc : Document) (baseURL : lib.URL)
    (us : List String)
    (hres : (findFavicons.linkHrefs doc).map (fun h => makeAbsoluteURL lib h baseURL) = us)
    (hvalid : "" ∉ us) (hdistinct : us.Nodup)
    (hf : makeAbsoluteURL lib "/favicon.ico" baseURL ∉ us)
    (hfvalid : makeAbsoluteURL lib "/favicon.ico" baseURL ≠ "") :
    findFavicons lib doc baseURL = us ++ [makeAbsoluteURL lib "/favicon.ico" baseURL] ∧
      findFavicons lib doc baseURL ≠ [] ∧
      (findFavicons lib doc baseURL).getLast? =
        some (makeAbsoluteURL lib "/favicon.ico" baseURL) := by
  have hfilter : us.filter (fun u => u != "") = us := by
    rw [List.filter_eq_self]
    intro u hu
    have : u ≠ "" := fun h => hvalid (h ▸ hu)
    simpa using this
  have hlist : ((findFavicons.linkHrefs doc ++ ["/favicon.ico"]).map
      (fun c => makeAbsoluteURL lib c baseURL)).filter (fun u => u != "") =
      us ++ [makeAbsoluteURL lib "/favicon.ico" baseURL] := by
    rw [List.map_append, hres, List.filter_append, hfilter]
    simp [hfvalid]
  have hnd : (us ++ [makeAbsoluteURL lib "/favicon.ico" baseURL]).Nodup := by
    rw [List.nodup_append]
    refine ⟨hdistinct, by simp, ?_⟩
    intro a ha hb
    rw [List.mem_singleton] at hb
    exact hf (hb ▸ ha)
  have heq : findFavicons lib doc baseURL =
      us ++ [makeAbsoluteURL lib "/favicon.ico" baseURL] := by
    rw [findFavicons.eq_removeDuplicates, hlist]
    exact removeDuplicates.eq_self_of_nodup _ hnd
  refine ⟨heq, ?_, ?_⟩
  · rw [heq]; simp
  · rw [heq]; simp

/-- C5 at a concrete page: two icon links and a style sheet link. -/
theorem findFavicons_priority_witness :
    findFavicons demo.netURL demo.page "https://example.com" =
        ["https://example.com/a.png", "https://cdn.example.com/b.png"] ++
          [makeAbsoluteURL demo.netURL "/favicon.ico" "https://example.com"] ∧
      findFavicons demo.netURL demo.page "https://example.com" ≠ [] ∧
      (findFavicons demo.netURL demo.page "https://example.com").getLast? =
        some (makeAbsoluteURL demo.netURL "/favicon.ico" "https://example.com") :=
  findFavicons_priority demo.netURL demo.page "https://example.com"
    ["https://example.com/a.png", "https://cdn.example.com/b.png"]
    (by decide) (by decide) (by decide) (by decide) (by decide)

/-! ## The proxy function of `httpClient` -/

/-- Whenever `HTTP_PROXY` is set, the loop ends with its value in `proxyURL`,
whatever `HTTPS_PROXY` holds: the later variable of the list overwrites the
earlier one. -/
theorem httpClient.proxyURL_of_HTTP_PROXY (getenv : String → String)
    (h : getenv "HTTP_PROXY" ≠ "") :
    httpClient.proxyURL getenv = getenv "HTTP_PROXY" := by
  simp [httpClient.proxyURL, h]

/-- C4 (evaluation of the code). With `HTTPS_PROXY=http://secure-proxy:8443`
and `HTTP_PROXY=http://plain-proxy:8080` the proxy function parses the value
of `HTTP_PROXY`, not that of `HTTPS_PROXY`. -/
theorem httpClient_Proxy_takes_HTTP_PROXY :
    httpClient.proxyURL demo.getenvBoth = "http://plain-proxy:8080" ∧
      httpClient.proxyURL demo.getenvBoth ≠ demo.getenvBoth "HTTPS_PROXY" ∧
      httpClient.Proxy demo.netURL demo.getenvBoth =
        some (demo.netURL.Parse "http://plain-proxy:8080") := by
  refine ⟨by decide, by decide, ?_⟩
  have h : httpClient.proxyURL demo.getenvBoth = "http://plain-proxy:8080" := by decide
  simp [httpClient.Proxy, h]

/-! ## The background colour of `generateDomainIcon` -/

theorem generateDomainIcon.hashBytes_snoc (bs : List UInt8) (b : UInt8) :
    generateDomainIcon.hashBytes (bs ++ [b]) =
      (generateDomainIcon.hashBytes bs * 31 + b.toNat) % 2 ^ 32 := by
  simp [generateDomainIcon.hashBytes, List.foldl_append]

theorem generateDomainIcon.hashBytes_lt (bs : List UInt8) :
    generateDomainIcon.hashBytes bs < 2 ^ 32 := by
  rcases List.eq_nil_or_concat bs with h | ⟨l, b, h⟩
  · subst h
    simp [generateDomainIcon.hashBytes]
  · subst h
    rw [List.concat_eq_append, generateDomainIcon.hashBytes_snoc]
    exact Nat.mod_lt _ (by norm_num)

/-- The channels of `bgColor` without the `uint8` wrap-around: no conversion
and no addition overflows. -/
theorem generateDomainIcon.bgColor_eq (domain : String) :
    generateDomainIcon.bgColor domain =
      ⟨(generateDomainIcon.hash domain >>> 16) % 200 + 55,
        (generateDomainIcon.hash domain >>> 8) % 200 + 55,
        generateDomainIcon.hash domain % 200 + 55, 255⟩ := by
  have h1 := Nat.mod_lt (generateDomainIcon.hash domain >>> 16) (show 0 < 200 by norm_num)
  have h2 := Nat.mod_lt (generateDomainIcon.hash domain >>> 8) (show 0 < 200 by norm_num)
  have h3 := Nat.mod_lt (generateDomainIcon.hash domain) (show 0 < 200 by norm_num)
  simp only [generateDomainIcon.bgColor]
  congr 1 <;> omega

/-- C8 (the claim as worded fails). For the domain `aa` the hash is 3104; the
code computes the blue channel from the whole hash, `3104 % 200 + 55 = 159`,
while bits 0–7 of the hash give `32 % 200 + 55 = 87`. -/
theorem generateDomainIcon_bgColor_not_byteSlices :
    generateDomainIcon.hash "aa" = 3104 ∧
      (generateDomainIcon.bgColor "aa").B = 159 ∧
      (spec.byteSliceColor (generateDomainIcon.hash "aa")).B = 87 ∧
      generateDomainIcon.bgColor "aa" ≠ spec.byteSliceColor (generateDomainIcon.hash "aa") := by
  refine ⟨by decide, by decide, by decide, by decide⟩

/-- C9. Every channel of the background colour lies between 55 and 254: the
`uint8` addition of 55 never wraps, and the background is never the white of
the disc. -/
theorem generateDomainIcon_bgColor_floor (domain : String) :
    (55 ≤ (generateDomainIcon.bgColor domain).R ∧ (generateDomainIcon.bgColor domain).R ≤ 254) ∧
      (55 ≤ (generateDomainIcon.bgColor domain).G ∧
        (generateDomainIcon.bgColor domain).G ≤ 254) ∧
      (55 ≤ (generateDomainIcon.bgColor domain).B ∧
        (generateDomainIcon.bgColor domain).B ≤ 254) ∧
      (generateDomainIcon.bgColor domain).A = 255 ∧
      generateDomainIcon.bgColor domain ≠ generateDomainIcon.textColor := by
  have h1 := Nat.mod_lt (generateDomainIcon.hash domain >>> 16) (show 0 < 200 by norm_num)
  have h2 := Nat.mod_lt (generateDomainIcon.hash domain >>> 8) (show 0 < 200 by norm_num)
  have h3 := Nat.mod_lt (generateDomainIcon.hash domain) (show 0 < 200 by norm_num)
  rw [generateDomainIcon.bgColor_eq]
  refine ⟨⟨by simp, by simp; omega⟩, ⟨by simp, by simp; omega⟩, ⟨by simp, by simp; omega⟩,
    rfl, ?_⟩
  intro h
  have hR := congrArg RGBA.R h
  simp [generateDomainIcon.textColor] at hR
  omega

/-! ## The layout of the fallback icon -/

theorem mem_intRange (lo hi i : Int) : i ∈ intRange lo hi ↔ lo ≤ i ∧ i ≤ hi := by
  unfold intRange
  simp only [List.mem_map, List.mem_range]
  constructor
  · rintro ⟨k, hk, rfl⟩
    omega
  · rintro ⟨h1, h2⟩
    exact ⟨(i - lo).toNat, by omega, by omega⟩

/-- A property that every iteration of a loop preserves holds after the loop. -/
theorem foldl_preserves {α β : Type} (P : β → Prop) (f : β → α → β) (l : List α)
    (hstep : ∀ b a, a ∈ l → P b → P (f b a)) : ∀ b, P b → P (l.foldl f b) := by
  induction l with
  | nil => intro b hb; exact hb
  | cons a l ih =>
    intro b hb
    rw [List.foldl_cons]
    exact ih (fun b1 a1 ha1 => hstep b1 a1 (List.mem_cons_of_mem _ ha1)) _
      (hstep b a (List.mem_cons_self _ _) hb)

theorem Image.Set_width (img : Image) (x y : Int) (c : RGBA) :
    (img.Set x y c).width = img.width := by
  unfold Image.Set
  split <;> rfl

theorem Image.Set_height (img : Image) (x y : Int) (c : RGBA) :
    (img.Set x y c).height = img.height := by
  unfold Image.Set
  split <;> rfl

/-- A pixel after `Set`: the new colour at the point set, the old colour
elsewhere. -/
theorem Image.Set_pix (img : Image) (x y : Int) (c : RGBA) (x1 y1 : Int) :
    (img.Set x y c).pix x1 y1 = img.pix x1 y1 ∨
      ((img.Set x y c).pix x1 y1 = c ∧ x1 = x ∧ y1 = y) := by
  unfold Image.Set
  split
  · by_cases h : x1 = x ∧ y1 = y
    · right
      simp [h]
    · left
      simp [h]
  · left
    rfl

/-- The body of `generateDomainIcon` with the centre and the radius computed. -/
theorem generateDomainIcon.unfold (domain : String) :
    generateDomainIcon domain =
      drawInitial
        ((intRange (64 - 32) (64 + 32)).foldl (fun img y =>
          (intRange (64 - 32) (64 + 32)).foldl (fun img x =>
            if (x - 64) * (x - 64) + (y - 64) * (y - 64) ≤ 32 * 32 then
              img.Set x y generateDomainIcon.textColor
            else img) img)
          (draw.fill (image.NewRGBA 128 128) (generateDomainIcon.bgColor domain)))
        (generateDomainIcon.initial domain) 64 64 (generateDomainIcon.bgColor domain) :=
  rfl

/-- The loops of `drawInitial` preserve every property of bitmaps that each
`Set` at an offset between -10 and 10 from the centre preserves. -/
theorem drawInitial.preserves (P : Image → Prop) (centerX centerY : Int) (color : RGBA)
    (hset : ∀ (img : Image) (i j : Int), -10 ≤ i → i ≤ 10 → -10 ≤ j → j ≤ 10 → P img →
      P (img.Set (centerX + i) (centerY + j) color))
    (initial : String) (img : Image) (h : P img) :
    P (drawInitial img initial centerX centerY color) := by
  have e1 : (-(20 : Int)).tdiv 2 = -10 := by decide
  have e2 : (20 : Int).tdiv 2 = 10 := by decide
  unfold drawInitial
  simp only [e1, e2]
  split
  · refine foldl_preserves P _ _ ?_ img h
    intro b i hi hb
    rw [mem_intRange] at hi
    refine foldl_preserves P _ _ ?_ b hb
    intro b1 j hj hb1
    rw [mem_intRange] at hj
    split
    · exact hset b1 i j hi.1 hi.2 hj.1 hj.2 hb1
    · exact hb1
  · split
    · refine foldl_preserves P _ _ ?_ img h
      intro b i hi hb
      rw [mem_intRange] at hi
      refine foldl_preserves P _ _ ?_ b hb
      intro b1 j hj hb1
      rw [mem_intRange] at hj
      split
      · exact hset b1 i j hi.1 hi.2 hj.1 hj.2 hb1
      · exact hb1
    · refine foldl_preserves P _ _ ?_ img h
      intro b i hi hb
      rw [mem_intRange] at hi
      have h1 := hset b i 0 hi.1 hi.2 (by norm_num) (by norm_num) hb
      have h2 := hset _ 0 i (by norm_num) (by norm_num) hi.1 hi.2 h1
      simpa using h2

/-- The glyph stays inside the disc: `drawInitial` at the centre (64, 64),
for any initial and any colour, changes no pixel outside the disc. -/
theorem drawInitial.outside_disc (img : Image) (initial : String) (color : RGBA)
    (x y : Int) (hout : (x - 64) ^ 2 + (y - 64) ^ 2 > 32 ^ 2) :
    (drawInitial img initial 64 64 color).pix x y = img.pix x y := by
  refine drawInitial.preserves (fun im => im.pix x y = img.pix x y) 64 64 color ?_ initial img rfl
  intro im i j hi1 hi2 hj1 hj2 him
  rcases Image.Set_pix im (64 + i) (64 + j) color x y with h | ⟨_, hx, hy⟩
  · rw [h, him]
  · exfalso
    subst hx hy
    nlinarith

/-- The bitmap after the fill, the disc and the glyph satisfies the drawing
invariant. -/
theorem generateDomainIcon.pixels (domain : String) :
    generateDomainIcon.Painted (generateDomainIcon.bgColor domain)
      (generateDomainIcon domain) := by
  rw [generateDomainIcon.unfold]
  refine drawInitial.preserves (generateDomainIcon.Painted (generateDomainIcon.bgColor domain))
    64 64 _ ?_ _ _ ?_
  · rintro im i j - - - - ⟨hw, hh, hp⟩
    refine ⟨by rw [Image.Set_width, hw], by rw [Image.Set_height, hh], ?_⟩
    intro x y hx0 hx1 hy0 hy1
    rcases Image.Set_pix im (64 + i) (64 + j) (generateDomainIcon.bgColor domain) x y with
      h | ⟨h, -, -⟩
    · rw [h]
      exact hp x y hx0 hx1 hy0 hy1
    · exact Or.inl h
  · refine foldl_preserves
      (generateDomainIcon.Painted (generateDomainIcon.bgColor domain)) _ _ ?_ _ ?_
    · intro b y _ hb
      refine foldl_preserves
        (generateDomainIcon.Painted (generateDomainIcon.bgColor domain)) _ _ ?_ b hb
      rintro im x - ⟨hw, hh, hp⟩
      split
      · rename_i hdisc
        refine ⟨by rw [Image.Set_width, hw], by rw [Image.Set_height, hh], ?_⟩
        intro x1 y1 hx0 hx1 hy0 hy1
        rcases Image.Set_pix im x y generateDomainIcon.textColor x1 y1 with h | ⟨h, rfl, rfl⟩
        · rw [h]
          exact hp x1 y1 hx0 hx1 hy0 hy1
        · refine Or.inr ⟨h, ?_⟩
          nlinarith
      · exact ⟨hw, hh, hp⟩
    · refine ⟨rfl, rfl, ?_⟩
      intro x y hx0 hx1 hy0 hy1
      left
      simp [draw.fill, image.NewRGBA, Image.inBounds, hx0, hx1, hy0, hy1]

/-- C10. The fallback icon is a 128×128 bitmap; on the canvas every pixel has
alpha 255, every pixel outside the disc of radius 32 around (64, 64) has
exactly the background colour, and every pixel inside it is white or of the
background colour.  The glyph is drawn inside the disc: for any initial and
any colour, `drawInitial` at the centre changes no pixel outside the disc. -/
theorem generateDomainIcon_layout (domain : String) :
    (generateDomainIcon domain).width = 128 ∧ (generateDomainIcon domain).height = 128 ∧
      (∀ x y : Int, 0 ≤ x → x < 128 → 0 ≤ y → y < 128 →
        ((generateDomainIcon domain).pix x y).A = 255 ∧
          ((x - 64) ^ 2 + (y - 64) ^ 2 > 32 ^ 2 →
            (generateDomainIcon domain).pix x y = generateDomainIcon.bgColor domain) ∧
          ((x - 64) ^ 2 + (y - 64) ^ 2 ≤ 32 ^ 2 →
            (generateDomainIcon domain).pix x y = generateDomainIcon.textColor ∨
              (generateDomainIcon domain).pix x y = generateDomainIcon.bgColor domain)) ∧
      (∀ (img : Image) (initial : String) (color : RGBA) (x y : Int),
        (x - 64) ^ 2 + (y - 64) ^ 2 > 32 ^ 2 →
          (drawInitial img initial 64 64 color).pix x y = img.pix x y) := by
  obtain ⟨hw, hh, hp⟩ := generateDomainIcon.pixels domain
  refine ⟨hw, hh, ?_, fun img initial color x y h => drawInitial.outside_disc img initial color x y h⟩
  intro x y hx0 hx1 hy0 hy1
  have hbgA : (generateDomainIcon.bgColor domain).A = 255 := by
    rw [generateDomainIcon.bgColor_eq]
  rcases hp x y hx0 hx1 hy0 hy1 with h | ⟨h, hd⟩
  · refine ⟨by rw [h, hbgA], fun _ => h, fun _ => Or.inr h⟩
  · refine ⟨by rw [h]; rfl, fun hout => absurd hd (not_le.2 hout), fun _ => Or.inl h⟩

/-- C10 at a concrete pixel: the corner (0, 0) of the icon of `example.com`. -/
theorem generateDomainIcon_layout_witness :
    ((generateDomainIcon "example.com").pix 0 0).A = 255 ∧
      (generateDomainIcon "example.com").pix 0 0 = generateDomainIcon.bgColor "example.com" :=
  ⟨((generateDomainIcon_layout "example.com").2.2.1 0 0 (by decide) (by decide) (by decide)
      (by decide)).1,
    ((generateDomainIcon_layout "example.com").2.2.1 0 0 (by decide) (by decide) (by decide)
      (by decide)).2.1 (by decide)⟩

/-- C8 (amended). The hash is the 32-bit rolling hash of the bytes of the
domain, and the background colour has R = (hash shifted right by 16) mod 200
plus 55, G = (hash shifted right by 8) mod 200 plus 55, B = hash mod 200 plus
55, and alpha 255; it is the colour of the corner pixel of the icon. -/
theorem generateDomainIcon_bgColor_formula (domain : String) :
    generateDomainIcon.hashBytes [] = 0 ∧
      (∀ (bs : List UInt8) (b : UInt8),
        generateDomainIcon.hashBytes (bs ++ [b]) =
          (generateDomainIcon.hashBytes bs * 31 + b.toNat) % 2 ^ 32) ∧
      generateDomainIcon.hash domain = generateDomainIcon.hashBytes (goBytes domain) ∧
      generateDomainIcon.hash domain < 2 ^ 32 ∧
      generateDomainIcon.bgColor domain =
        ⟨(generateDomainIcon.hash domain >>> 16) % 200 + 55,
          (generateDomainIcon.hash domain >>> 8) % 200 + 55,
          generateDomainIcon.hash domain % 200 + 55, 255⟩ ∧
      (generateDomainIcon domain).pix 0 0 = generateDomainIcon.bgColor domain := by
  refine ⟨rfl, generateDomainIcon.hashBytes_snoc, rfl, generateDomainIcon.hashBytes_lt _,
    generateDomainIcon.bgColor_eq domain, ?_⟩
  rcases (generateDomainIcon.pixels domain).2.2 0 0 (by decide) (by decide) (by decide)
    (by decide) with h | ⟨_, hd⟩
  · exact h
  · exact absurd hd (by decide)

/-! ## `fetchWithRetry` -/

theorem intRange_cons (lo hi : Int) (h : lo ≤ hi) :
    intRange lo hi = lo :: intRange (lo + 1) hi := by
  unfold intRange
  have e : (hi + 1 - lo).toNat = (hi + 1 - (lo + 1)).toNat + 1 := by omega
  rw [e, List.range_succ_eq_map, List.map_cons, List.map_map]
  congr 1
  · simp
  · apply List.map_congr_left
    intro k _
    simp only [Function.comp_apply, Nat.succ_eq_add_one]
    push_cast
    ring

theorem intRange_nil (lo hi : Int) (h : hi < lo) : intRange lo hi = [] := by
  unfold intRange
  have e : (hi + 1 - lo).toNat = 0 := by omega
  rw [e]
  rfl

theorem requestsOf_map_request (url : String) (os : List DoResult) (d : Nat) :
    requestsOf ((os.map (Event.request url)).intersperse (.sleep d)) = os := by
  induction os with
  | nil => rfl
  | cons o os ih =>
    cases os with
    | nil => rfl
    | cons o2 os2 =>
      simp only [List.map_cons, List.intersperse, requestsOf] at ih ⊢
      rw [ih]

theorem sleepsOf_map_request (url : String) (os : List DoResult) (d : Nat) :
    sleepsOf ((os.map (Event.request url)).intersperse (.sleep d)) =
      List.replicate (os.length - 1) d := by
  induction os with
  | nil => rfl
  | cons o os ih =>
    cases os with
    | nil => rfl
    | cons o2 os2 =>
      simp only [List.map_cons, List.intersperse, sleepsOf, List.length_cons] at ih ⊢
      rw [ih]
      simp [List.replicate_succ]

/-- The worlds of the attempts of a run started in `w` are, from the second
attempt on, the worlds of the attempts of a run started after the first
request and the first sleep. -/
theorem fetchWithRetry.attemptWorld_shift {σ : Type} (env : Env σ) (targetURL : String)
    (retryDelay : Nat) (w : σ) (k : Nat) :
    fetchWithRetry.attemptWorld env targetURL retryDelay w (k + 1) =
      fetchWithRetry.attemptWorld env targetURL retryDelay
        (env.Sleep retryDelay (env.Do targetURL w).2) k := by
  induction k with
  | zero => rfl
  | succ k ih =>
    show env.Sleep retryDelay (env.Do targetURL
        (fetchWithRetry.attemptWorld env targetURL retryDelay w (k + 1))).2 =
      env.Sleep retryDelay (env.Do targetURL
        (fetchWithRetry.attemptWorld env targetURL retryDelay
          (env.Sleep retryDelay (env.Do targetURL w).2) k)).2
    rw [ih]

theorem fetchWithRetry.outcome_shift {σ : Type} (env : Env σ) (targetURL : String)
    (retryDelay : Nat) (w : σ) (k : Nat) :
    fetchWithRetry.outcome env targetURL retryDelay w (k + 1) =
      fetchWithRetry.outcome env targetURL retryDelay
        (env.Sleep retryDelay (env.Do targetURL w).2) k := by
  unfold fetchWithRetry.outcome
  rw [fetchWithRetry.attemptWorld_shift]

/-- The trace of `n + 2` failed attempts: the first request, a sleep, and the
trace of the `n + 1` attempts that follow. -/
theorem fetchWithRetry.trace_shift {σ : Type} (env : Env σ) (targetURL : String)
    (retryDelay : Nat) (w : σ) (n : Nat) :
    ((List.range (n + 1 + 1)).map (fun k =>
        Event.request targetURL (fetchWithRetry.outcome env targetURL retryDelay w k))).intersperse
        (.sleep retryDelay) =
      Event.request targetURL (env.Do targetURL w).1 :: .sleep retryDelay ::
        ((List.range (n + 1)).map (fun k =>
          Event.request targetURL
            (fetchWithRetry.outcome env targetURL retryDelay
              (env.Sleep retryDelay (env.Do targetURL w).2) k))).intersperse
          (.sleep retryDelay) := by
  have hmap : (List.range (n + 1 + 1)).map (fun k =>
        Event.request targetURL (fetchWithRetry.outcome env targetURL retryDelay w k)) =
      Event.request targetURL (env.Do targetURL w).1 ::
        (List.range (n + 1)).map (fun k =>
          Event.request targetURL
            (fetchWithRetry.outcome env targetURL retryDelay
              (env.Sleep retryDelay (env.Do targetURL w).2) k)) := by
    rw [List.range_succ_eq_map, List.map_cons, List.map_map]
    congr 1
    apply List.map_congr_left
    intro k _
    simp only [Function.comp_apply, Nat.succ_eq_add_one]
    rw [fetchWithRetry.outcome_shift]
  rw [hmap, List.range_succ_eq_map (n := n), List.map_cons]
  rfl

/-- The loop of `fetchWithRetry` from `attempt = a` with `n` retries left and
world `w`, when `httpClient.Do` fails in each of the `n + 1` attempts: the
requests, sleeps, returned error and final world are those of `env.Do` and
`env.Sleep` along the worlds of the attempts. -/
theorem fetchWithRetry.loop_exhausts {σ : Type} (env : Env σ) (targetURL : String)
    (maxRetries : Int) (retryDelay : Nat) (hreq : env.NewRequest targetURL = none) (n : Nat) :
    ∀ (a : Int) (lastErr : Option FetchError) (w : σ), a + n = maxRetries →
      (∀ k : Nat, k ≤ n →
        (fetchWithRetry.outcome env targetURL retryDelay w k).failed = true) →
      (fetchWithRetry.loop env targetURL maxRetries retryDelay
          (intRange a maxRetries) lastErr w).trace =
          ((List.range (n + 1)).map (fun k =>
            Event.request targetURL
              (fetchWithRetry.outcome env targetURL retryDelay w k))).intersperse
            (.sleep retryDelay) ∧
        (fetchWithRetry.loop env targetURL maxRetries retryDelay
          (intRange a maxRetries) lastErr w).val =
          (none, some (FetchError.ofLast
            (fetchWithRetry.outcome env targetURL retryDelay w n))) ∧
        (fetchWithRetry.loop env targetURL maxRetries retryDelay
          (intRange a maxRetries) lastErr w).world =
          (env.Do targetURL (fetchWithRetry.attemptWorld env targetURL retryDelay w n)).2 := by
  induction n with
  | zero =>
    intro a lastErr w ha hfail
    have hrange : intRange a maxRetries = [a] := by
      rw [intRange_cons a maxRetries (by omega), intRange_nil _ _ (by omega)]
    have hlt : ¬ a < maxRetries := by omega
    have h0 := hfail 0 (le_refl 0)
    simp only [fetchWithRetry.outcome, fetchWithRetry.attemptWorld] at h0 ⊢
    rw [hrange]
    cases hdo : env.Do targetURL w with
    | mk o w1 =>
      rw [hdo] at h0
      cases o with
      | err e =>
        refine ⟨?_, ?_, ?_⟩ <;>
          simp [fetchWithRetry.loop, hreq, hdo, hlt, FetchError.ofLast, List.intersperse,
            fetchWithRetry.outcome, fetchWithRetry.attemptWorld]
      | resp r =>
        have hst : (r.StatusCode != 200) = true := by simpa [DoResult.failed] using h0
        refine ⟨?_, ?_, ?_⟩ <;>
          simp [fetchWithRetry.loop, hreq, hdo, hlt, hst, FetchError.ofLast, List.intersperse,
            fetchWithRetry.outcome, fetchWithRetry.attemptWorld]
  | succ n ih =>
    intro a lastErr w ha hfail
    have hrange : intRange a maxRetries = a :: intRange (a + 1) maxRetries :=
      intRange_cons a maxRetries (by omega)
    have hlt : a < maxRetries := by omega
    have h0 := hfail 0 (Nat.zero_le _)
    simp only [fetchWithRetry.outcome, fetchWithRetry.attemptWorld] at h0
    have hrest : ∀ k : Nat, k ≤ n →
        (fetchWithRetry.outcome env targetURL retryDelay
          (env.Sleep retryDelay (env.Do targetURL w).2) k).failed = true := by
      intro k hk
      rw [← fetchWithRetry.outcome_shift]
      exact hfail (k + 1) (by omega)
    rw [hrange, fetchWithRetry.trace_shift]
    have hval : fetchWithRetry.outcome env targetURL retryDelay w (n + 1) =
        fetchWithRetry.outcome env targetURL retryDelay
          (env.Sleep retryDelay (env.Do targetURL w).2) n :=
      fetchWithRetry.outcome_shift env targetURL retryDelay w n
    have hworld : fetchWithRetry.attemptWorld env targetURL retryDelay w (n + 1) =
        fetchWithRetry.attemptWorld env targetURL retryDelay
          (env.Sleep retryDelay (env.Do targetURL w).2) n :=
      fetchWithRetry.attemptWorld_shift env targetURL retryDelay w n
    rw [hval, hworld]
    cases hdo : env.Do targetURL w with
    | mk o w1 =>
      rw [hdo] at h0 hrest
      cases o with
      | err e =>
        obtain ⟨h1, h2, h3⟩ :=
          ih (a + 1) (some (.transport e)) (env.Sleep retryDelay w1) (by omega) hrest
        simp only [fetchWithRetry.loop, hreq, hdo, hlt, if_true]
        exact ⟨by rw [h1], h2, h3⟩
      | resp r =>
        have hst : (r.StatusCode != 200) = true := by simpa [DoResult.failed] using h0
        obtain ⟨h1, h2, h3⟩ :=
          ih (a + 1) (some (.statusCode r.StatusCode)) (env.Sleep retryDelay w1) (by omega)
            hrest
        simp only [fetchWithRetry.loop, hreq, hdo, hlt, hst, if_true]
        exact ⟨by rw [h1], h2, h3⟩

/-- C3. For a non-negative `maxRetries`, when the request can be created and
`httpClient.Do` ends every one of the attempts `0 .. maxRetries` in a
transport error or a status other than 200, `fetchWithRetry` calls
`httpClient.Do` exactly `maxRetries + 1` times, each time in the world left by
the previous call and sleep, calls `time.Sleep(retryDelay)` exactly
`maxRetries` times, once between consecutive requests, and returns no response
and the error of the outcome of the last call, in the world left by that
call. -/
theorem fetchWithRetry_retry_bound {σ : Type} (env : Env σ) (targetURL : String)
    (maxRetries : Int) (retryDelay : Nat) (w : σ) (hmax : 0 ≤ maxRetries)
    (hreq : env.NewRequest targetURL = none)
    (hfail : ∀ k : Nat, k ≤ maxRetries.toNat →
      (env.Do targetURL
        (fetchWithRetry.attemptWorld env targetURL retryDelay w k)).1.failed = true) :
    (fetchWithRetry env targetURL maxRetries retryDelay w).trace =
        ((List.range (maxRetries.toNat + 1)).map (fun k =>
          Event.request targetURL
            (env.Do targetURL
              (fetchWithRetry.attemptWorld env targetURL retryDelay w k)).1)).intersperse
          (.sleep retryDelay) ∧
      requestsOf (fetchWithRetry env targetURL maxRetries retryDelay w).trace =
        (List.range (maxRetries.toNat + 1)).map (fun k =>
          (env.Do targetURL (fetchWithRetry.attemptWorld env targetURL retryDelay w k)).1) ∧
      (requestsOf (fetchWithRetry env targetURL maxRetries retryDelay w).trace).length =
        maxRetries.toNat + 1 ∧
      sleepsOf (fetchWithRetry env targetURL maxRetries retryDelay w).trace =
        List.replicate maxRetries.toNat retryDelay ∧
      (fetchWithRetry env targetURL maxRetries retryDelay w).val =
        (none, some (FetchError.ofLast
          (env.Do targetURL
            (fetchWithRetry.attemptWorld env targetURL retryDelay w maxRetries.toNat)).1)) ∧
      (fetchWithRetry env targetURL maxRetries retryDelay w).world =
        (env.Do targetURL
          (fetchWithRetry.attemptWorld env targetURL retryDelay w maxRetries.toNat)).2 := by
  obtain ⟨h1, h2, h3⟩ :=
    fetchWithRetry.loop_exhausts env targetURL maxRetries retryDelay hreq maxRetries.toNat 0
      none w (by omega) hfail
  have hmapped : (List.range (maxRetries.toNat + 1)).map (fun k =>
        Event.request targetURL (fetchWithRetry.outcome env targetURL retryDelay w k)) =
      ((List.range (maxRetries.toNat + 1)).map (fun k =>
        (env.Do targetURL
          (fetchWithRetry.attemptWorld env targetURL retryDelay w k)).1)).map
        (Event.request targetURL) := by
    rw [List.map_map]
    rfl
  have htrace : (fetchWithRetry env targetURL maxRetries retryDelay w).trace =
      (((List.range (maxRetries.toNat + 1)).map (fun k =>
        (env.Do targetURL
          (fetchWithRetry.attemptWorld env targetURL retryDelay w k)).1)).map
        (Event.request targetURL)).intersperse (.sleep retryDelay) := by
    unfold fetchWithRetry
    rw [h1, hmapped]
  refine ⟨?_, ?_, ?_, ?_, h2, h3⟩
  · rw [htrace, List.map_map]
    rfl
  · rw [htrace, requestsOf_map_request]
  · rw [htrace, requestsOf_map_request]
    simp
  · rw [htrace, sleepsOf_map_request]
    simp

/-- C3 in the world where every request is answered with status 503 and the
state counts the requests: three requests, two sleeps of one second, the
status error, and a final state of three requests. -/
theorem fetchWithRetry_retry_bound_witness :
    ((fetchWithRetry demo.env503 "https://example.com/favicon.ico" 2 1000000000 0).trace =
        ((List.range ((2 : Int).toNat + 1)).map (fun k =>
          Event.request "https://example.com/favicon.ico"
            (demo.env503.Do "https://example.com/favicon.ico"
              (fetchWithRetry.attemptWorld demo.env503 "https://example.com/favicon.ico"
                1000000000 0 k)).1)).intersperse (.sleep 1000000000) ∧
      requestsOf
          (fetchWithRetry demo.env503 "https://example.com/favicon.ico" 2 1000000000 0).trace =
        (List.range ((2 : Int).toNat + 1)).map (fun k =>
          (demo.env503.Do "https://example.com/favicon.ico"
            (fetchWithRetry.attemptWorld demo.env503 "https://example.com/favicon.ico"
              1000000000 0 k)).1) ∧
      (requestsOf
          (fetchWithRetry demo.env503 "https://example.com/favicon.ico" 2
            1000000000 0).trace).length = (2 : Int).toNat + 1 ∧
      sleepsOf
          (fetchWithRetry demo.env503 "https://example.com/favicon.ico" 2 1000000000 0).trace =
        List.replicate (2 : Int).toNat 1000000000 ∧
      (fetchWithRetry demo.env503 "https://example.com/favicon.ico" 2 1000000000 0).val =
        (none, some (FetchError.ofLast
          (demo.env503.Do "https://example.com/favicon.ico"
            (fetchWithRetry.attemptWorld demo.env503 "https://example.com/favicon.ico"
              1000000000 0 (2 : Int).toNat)).1)) ∧
      (fetchWithRetry demo.env503 "https://example.com/favicon.ico" 2 1000000000 0).world =
        (demo.env503.Do "https://example.com/favicon.ico"
          (fetchWithRetry.attemptWorld demo.env503 "https://example.com/favicon.ico"
            1000000000 0 (2 : Int).toNat)).2) ∧
    (fetchWithRetry demo.env503 "https://example.com/favicon.ico" 2 1000000000 0).val =
      (none, some (.statusCode 503)) ∧
    (fetchWithRetry demo.env503 "https://example.com/favicon.ico" 2 1000000000 0).world = 3 ∧
    (fetchWithRetry demo.env503 "https://example.com/favicon.ico" 2 1000000000 0).trace =
      [.request "https://example.com/favicon.ico" (.resp ⟨503, "text/html", some []⟩),
        .sleep 1000000000,
        .request "https://example.com/favicon.ico" (.resp ⟨503, "text/html", some []⟩),
        .sleep 1000000000,
        .request "https://example.com/favicon.ico" (.resp ⟨503, "text/html", some []⟩)] :=
  ⟨fetchWithRetry_retry_bound demo.env503 "https://example.com/favicon.ico" 2 1000000000 0
      (by decide) rfl (fun _ _ => rfl),
    by decide, by decide, by decide⟩

/-! ## The resolution loops -/

/-- The loop of `getFavicon`, entered with `img = nil` and `success = false`:
either it stops at the first call that succeeds, or every call fails and the
variables keep their values. Every logged call is a call of
`fetchAndDecodeImage` with the logged result. -/
theorem getFavicon.tryCandidates_spec {σ : Type} (env : Env σ) (urls : List String) :
    ∀ (faviconURL : String) (w : σ),
      ((∃ (pre : List String) (u : String) (post : List String),
          urls = pre ++ u :: post ∧
            (getFavicon.tryCandidates env urls none faviconURL false w).calls =
              pre.map (fun x => (x, false)) ++ [(u, true)] ∧
            (getFavicon.tryCandidates env urls none faviconURL false w).faviconURL = u ∧
            (getFavicon.tryCandidates env urls none faviconURL false w).success = true ∧
            (getFavicon.tryCandidates env urls none faviconURL false w).img.isSome = true) ∨
        ((getFavicon.tryCandidates env urls none faviconURL false w).calls =
            urls.map (fun x => (x, false)) ∧
          (getFavicon.tryCandidates env urls none faviconURL false w).faviconURL = faviconURL ∧
          (getFavicon.tryCandidates env urls none faviconURL false w).success = false ∧
          (getFavicon.tryCandidates env urls none faviconURL false w).img = none)) ∧
      ∀ c ∈ (getFavicon.tryCandidates env urls none faviconURL false w).calls,
        ∃ w1 : σ, (fetchAndDecodeImage env c.1 w1).val.isSome = c.2 := by
  induction urls with
  | nil =>
    intro faviconURL w
    simp [getFavicon.tryCandidates]
  | cons url rest ih =>
    intro faviconURL w
    cases hcall : (fetchAndDecodeImage env url w).val with
    | some img =>
      refine ⟨Or.inl ⟨[], url, rest, rfl, ?_, ?_, ?_, ?_⟩, ?_⟩ <;>
        simp only [getFavicon.tryCandidates, hcall] <;> try simp
      exact ⟨w, by rw [hcall]; rfl⟩
    | none =>
      obtain ⟨hcases, hsound⟩ := ih faviconURL (fetchAndDecodeImage env url w).world
      constructor
      · rcases hcases with ⟨pre, u, post, h1, h2, h3, h4, h5⟩ | ⟨h1, h2, h3, h4⟩
        · refine Or.inl ⟨url :: pre, u, post, by rw [h1]; rfl, ?_, ?_, ?_, ?_⟩ <;>
            simp only [getFavicon.tryCandidates, hcall]
          · rw [h2]; rfl
          · exact h3
          · exact h4
          · exact h5
        · refine Or.inr ⟨?_, ?_, ?_, ?_⟩ <;> simp only [getFavicon.tryCandidates, hcall]
          · rw [h1]; rfl
          · exact h2
          · exact h3
          · exact h4
      · simp only [getFavicon.tryCandidates, hcall]
        intro c hc
        rcases List.mem_cons.1 hc with rfl | hc
        · exact ⟨w, by rw [hcall]; rfl⟩
        · exact hsound c hc

/-- The loop of `getWebsiteInfoByQuery`: the same two cases. -/
theorem getWebsiteInfoByQuery.queryCandidates_spec {σ : Type} (env : Env σ)
    (urls : List String) :
    ∀ (faviconURL : String) (w : σ),
      (∃ (pre : List String) (u : String) (post : List String),
          urls = pre ++ u :: post ∧
            (getWebsiteInfoByQuery.tryCandidates env urls faviconURL w).calls =
              pre.map (fun x => (x, false)) ++ [(u, true)] ∧
            (getWebsiteInfoByQuery.tryCandidates env urls faviconURL w).faviconURL = u) ∨
        ((getWebsiteInfoByQuery.tryCandidates env urls faviconURL w).calls =
            urls.map (fun x => (x, false)) ∧
          (getWebsiteInfoByQuery.tryCandidates env urls faviconURL w).faviconURL =
            faviconURL) := by
  induction urls with
  | nil =>
    intro faviconURL w
    simp [getWebsiteInfoByQuery.tryCandidates]
  | cons url rest ih =>
    intro faviconURL w
    cases hcall : (fetchAndDecodeImage env url w).val with
    | some img =>
      refine Or.inl ⟨[], url, rest, rfl, ?_, ?_⟩ <;>
        simp [getWebsiteInfoByQuery.tryCandidates, hcall]
    | none =>
      rcases ih faviconURL (fetchAndDecodeImage env url w).world with
        ⟨pre, u, post, h1, h2, h3⟩ | ⟨h1, h2⟩
      · refine Or.inl ⟨url :: pre, u, post, by rw [h1]; rfl, ?_, ?_⟩ <;>
          simp only [getWebsiteInfoByQuery.tryCandidates, hcall]
        · rw [h2]; rfl
        · exact h3
      · refine Or.inr ⟨?_, ?_⟩ <;> simp only [getWebsiteInfoByQuery.tryCandidates, hcall]
        · rw [h1]; rfl
        · exact h2

/-- C1. For every candidate list and every world, the resolution of
`getFavicon` either calls `fetchAndDecodeImage` once on each candidate up to
and including the first one that succeeds, in list order, reports that
candidate, and calls it on no later candidate; or it calls it once on every
candidate, all calls fail, and it reports `generated`. Every logged call is a
call of `fetchAndDecodeImage` with the logged result. -/
theorem getFavicon_first_success_wins {σ : Type} (env : Env σ) (hostname : String)
    (faviconURLs : List String) (w : σ) :
    ((∃ (pre : List String) (u : String) (post : List String),
        faviconURLs = pre ++ u :: post ∧
          (getFavicon.resolveFrom env hostname faviconURLs w).calls =
            pre.map (fun x => (x, false)) ++ [(u, true)] ∧
          (getFavicon.resolveFrom env hostname faviconURLs w).faviconURL = u ∧
          (getFavicon.resolveFrom env hostname faviconURLs w).success = true ∧
          (getFavicon.resolveFrom env hostname faviconURLs w).img.isSome = true) ∨
      ((getFavicon.resolveFrom env hostname faviconURLs w).calls =
          faviconURLs.map (fun x => (x, false)) ∧
        (getFavicon.resolveFrom env hostname faviconURLs w).faviconURL = "generated" ∧
        (getFavicon.resolveFrom env hostname faviconURLs w).success = false ∧
        (getFavicon.resolveFrom env hostname faviconURLs w).img =
          some (generateDomainIcon hostname))) ∧
      ∀ c ∈ (getFavicon.resolveFrom env hostname faviconURLs w).calls,
        ∃ w1 : σ, (fetchAndDecodeImage env c.1 w1).val.isSome = c.2 := by
  obtain ⟨hcases, hsound⟩ := getFavicon.tryCandidates_spec env faviconURLs "" w
  rcases hcases with ⟨pre, u, post, h1, h2, h3, h4, h5⟩ | ⟨h1, h2, h3, h4⟩
  · have hr : getFavicon.resolveFrom env hostname faviconURLs w =
        getFavicon.tryCandidates env faviconURLs none "" false w := by
      simp [getFavicon.resolveFrom, h4]
    rw [hr]
    exact ⟨Or.inl ⟨pre, u, post, h1, h2, h3, h4, h5⟩, hsound⟩
  · have hr : getFavicon.resolveFrom env hostname faviconURLs w =
        { getFavicon.tryCandidates env faviconURLs none "" false w with
          img := some (generateDomainIcon hostname), faviconURL := "generated" } := by
      simp [getFavicon.resolveFrom, h3]
    rw [hr]
    exact ⟨Or.inr ⟨h1, rfl, h3, rfl⟩, hsound⟩

/-- C2 (amended). When every call of `fetchAndDecodeImage` made by the
resolution fails, `getFavicon` has tried every discovered candidate and
reports `generated` with the bitmap `generateDomainIcon` of the host name;
`getWebsiteInfoByQuery` has tried every discovered candidate and reports the
fixed address `http://127.0.0.1:3000/static/favicon.svg`. -/
theorem resolution_fallback {σ : Type} (lib : NetURL) (env : Env σ) (doc : Document)
    (parsedURL : lib.URL) (w : σ) :
    ((∀ c ∈ (getFavicon.resolve lib env doc parsedURL w).calls, c.2 = false) →
        (getFavicon.resolve lib env doc parsedURL w).faviconURL = "generated" ∧
          (getFavicon.resolve lib env doc parsedURL w).img =
            some (generateDomainIcon (lib.Hostname parsedURL)) ∧
          (getFavicon.resolve lib env doc parsedURL w).calls =
            (findFavicons lib doc parsedURL).map (fun x => (x, false))) ∧
      ((∀ c ∈ (getWebsiteInfoByQuery.resolve lib env doc parsedURL w).calls, c.2 = false) →
        (getWebsiteInfoByQuery.resolve lib env doc parsedURL w).faviconURL =
            "http://127.0.0.1:3000/static/favicon.svg" ∧
          (getWebsiteInfoByQuery.resolve lib env doc parsedURL w).calls =
            (findFavicons lib doc parsedURL).map (fun x => (x, false))) := by
  constructor
  · intro hall
    unfold getFavicon.resolve at hall ⊢
    obtain ⟨hcases, -⟩ := getFavicon.tryCandidates_spec env (findFavicons lib doc parsedURL) "" w
    rcases hcases with ⟨pre, u, post, h1, h2, h3, h4, h5⟩ | ⟨h1, h2, h3, h4⟩
    · exfalso
      have hr : getFavicon.resolveFrom env (lib.Hostname parsedURL)
          (findFavicons lib doc parsedURL) w =
          getFavicon.tryCandidates env (findFavicons lib doc parsedURL) none "" false w := by
        simp [getFavicon.resolveFrom, h4]
      rw [hr, h2] at hall
      have := hall (u, true) (by simp)
      simp at this
    · have hr : getFavicon.resolveFrom env (lib.Hostname parsedURL)
          (findFavicons lib doc parsedURL) w =
          { getFavicon.tryCandidates env (findFavicons lib doc parsedURL) none "" false w with
            img := some (generateDomainIcon (lib.Hostname parsedURL)),
            faviconURL := "generated" } := by
        simp [getFavicon.resolveFrom, h3]
      rw [hr]
      exact ⟨rfl, rfl, h1⟩
  · intro hall
    unfold getWebsiteInfoByQuery.resolve at hall ⊢
    by_cases hlen : (findFavicons lib doc parsedURL).length > 0
    · simp only [hlen, if_true] at hall ⊢
      rcases getWebsiteInfoByQuery.queryCandidates_spec env (findFavicons lib doc parsedURL) "" w
        with ⟨pre, u, post, h1, h2, h3⟩ | ⟨h1, h2⟩
      · exfalso
        have hc : (u, true) ∈
            (getWebsiteInfoByQuery.tryCandidates env (findFavicons lib doc parsedURL) ""
              w).calls := by
          rw [h2]; simp
        split at hall
        · have := hall (u, true) hc
          simp at this
        · have := hall (u, true) hc
          simp at this
      · simp only [h2, if_true]
        exact ⟨trivial, h1⟩
    · have hnil : findFavicons lib doc parsedURL = [] := by
        cases hl : findFavicons lib doc parsedURL with
        | nil => rfl
        | cons a l => rw [hl] at hlen; simp at hlen
      simp [hnil]

/-- C1 at a concrete input: the first candidate is answered with status 404 on
each of its three requests, the second decodes, the third is never tried. -/
theorem getFavicon_first_success_wins_witness :
    (getFavicon.resolveFrom demo.envSecond "example.com"
        ["https://example.com/a.png", "https://example.com/b.png",
          "https://example.com/favicon.ico"] 0).calls =
        [("https://example.com/a.png", false), ("https://example.com/b.png", true)] ∧
      (getFavicon.resolveFrom demo.envSecond "example.com"
        ["https://example.com/a.png", "https://example.com/b.png",
          "https://example.com/favicon.ico"] 0).faviconURL = "https://example.com/b.png" ∧
      (getFavicon.resolveFrom demo.envSecond "example.com"
        ["https://example.com/a.png", "https://example.com/b.png",
          "https://example.com/favicon.ico"] 0).world = 4 := by
  refine ⟨by decide, by decide, by decide⟩

/-- C2 (the claim as worded fails for the second loop). In a world where every
request is answered with status 503, every candidate of the page fails, and
`getWebsiteInfoByQuery` reports the fixed address, not `generated`. -/
theorem getWebsiteInfoByQuery_fallback_not_generated :
    (getWebsiteInfoByQuery.resolve demo.netURL demo.env503 demo.page
        "https://example.com" 0).calls =
        [("https://example.com/a.png", false), ("https://cdn.example.com/b.png", false),
          ("https://example.com/favicon.ico", false)] ∧
      (getWebsiteInfoByQuery.resolve demo.netURL demo.env503 demo.page
        "https://example.com" 0).faviconURL = "http://127.0.0.1:3000/static/favicon.svg" ∧
      ((getWebsiteInfoByQuery.resolve demo.netURL demo.env503 demo.page
        "https://example.com" 0).faviconURL == "generated") = false := by
  refine ⟨by decide, by decide, by decide⟩

/-- C2 (amended) in the world where every request is answered with status 503. -/
theorem resolution_fallback_witness :
    ((getFavicon.resolve demo.netURL demo.env503 demo.page "https://example.com" 0).faviconURL =
        "generated" ∧
      (getFavicon.resolve demo.netURL demo.env503 demo.page "https://example.com" 0).img =
        some (generateDomainIcon (demo.netURL.Hostname "https://example.com")) ∧
      (getFavicon.resolve demo.netURL demo.env503 demo.page "https://example.com" 0).calls =
        (findFavicons demo.netURL demo.page "https://example.com").map (fun x => (x, false))) ∧
    ((getWebsiteInfoByQuery.resolve demo.netURL demo.env503 demo.page
        "https://example.com" 0).faviconURL = "http://127.0.0.1:3000/static/favicon.svg" ∧
      (getWebsiteInfoByQuery.resolve demo.netURL demo.env503 demo.page
        "https://example.com" 0).calls =
        (findFavicons demo.netURL demo.page "https://example.com").map (fun x => (x, false))) :=
  ⟨(resolution_fallback demo.netURL demo.env503 demo.page "https://example.com" 0).1
      (by decide),
    (resolution_fallback demo.netURL demo.env503 demo.page "https://example.com" 0).2
      (by decide)⟩

/-! ## The vector dispatch of `fetchAndDecodeImage` -/

/-- The loop of `fetchWithRetry` never calls the vector rasterizer. -/
theorem fetchWithRetry.loop_no_renderSVG {σ : Type} (env : Env σ) (targetURL : String)
    (maxRetries : Int) (retryDelay : Nat) (attempts : List Int) :
    ∀ (lastErr : Option FetchError) (w : σ) (d : List UInt8),
      Event.renderSVG d ∉
        (fetchWithRetry.loop env targetURL maxRetries retryDelay attempts lastErr w).trace := by
  induction attempts with
  | nil =>
    intro lastErr w d
    simp [fetchWithRetry.loop]
  | cons a rest ih =>
    intro lastErr w d
    unfold fetchWithRetry.loop
    split
    · simp
    · split
      · split
        · simpa using ih _ _ d
        · simp
      · split
        · split
          · simpa using ih _ _ d
          · simp
        · simp

/-- C7 (amended). For a candidate that is not an inline data URL and whose
fetch returned a response with a readable body, `fetchAndDecodeImage` calls
the vector rasterizer if and only if the content type contains
`image/svg+xml` or the whole lower-cased URL text ends in `.svg`; it then
calls it on the fetched bytes and returns its result. -/
theorem fetchAndDecodeImage_vector_dispatch {σ : Type} (env : Env σ) (imageURL : String)
    (w : σ) (resp : Response) (imgData : List UInt8)
    (hremote : strings.HasPrefix imageURL "data:image/" = false)
    (hfetch : (fetchWithRetry env imageURL 2 1000000000 w).val = (some resp, none))
    (hbody : resp.Body = some imgData) :
    ((∃ d, Event.renderSVG d ∈ (fetchAndDecodeImage env imageURL w).trace) ↔
        (strings.Contains resp.ContentType "image/svg+xml" = true ∨
          strings.HasSuffix (strings.ToLower imageURL) ".svg" = true)) ∧
      (∀ d, Event.renderSVG d ∈ (fetchAndDecodeImage env imageURL w).trace → d = imgData) ∧
      ((strings.Contains resp.ContentType "image/svg+xml" = true ∨
          strings.HasSuffix (strings.ToLower imageURL) ".svg" = true) →
        (fetchAndDecodeImage env imageURL w).val = env.renderSVGToImage imgData) := by
  have hno : ∀ d, Event.renderSVG d ∉ (fetchWithRetry env imageURL 2 1000000000 w).trace :=
    fun d => fetchWithRetry.loop_no_renderSVG env imageURL 2 1000000000 _ none w d
  by_cases hsvg : fetchAndDecodeImage.isSVG resp.ContentType imageURL = true
  · have hcond : strings.Contains resp.ContentType "image/svg+xml" = true ∨
        strings.HasSuffix (strings.ToLower imageURL) ".svg" = true := by
      simpa [fetchAndDecodeImage.isSVG] using hsvg
    cases hr : env.renderSVGToImage imgData with
    | none =>
      have htrace : (fetchAndDecodeImage env imageURL w).trace =
          (fetchWithRetry env imageURL 2 1000000000 w).trace ++ [.renderSVG imgData] := by
        simp [fetchAndDecodeImage, hremote, hfetch, hbody, hsvg, hr]
      have hval : (fetchAndDecodeImage env imageURL w).val = none := by
        simp [fetchAndDecodeImage, hremote, hfetch, hbody, hsvg, hr]
      refine ⟨⟨fun _ => hcond, fun _ => ⟨imgData, by rw [htrace]; simp⟩⟩, ?_, fun _ => hval⟩
      intro d hd
      rw [htrace, List.mem_append] at hd
      rcases hd with hd | hd
      · exact absurd hd (hno d)
      · simpa using hd
    | some img =>
      have htrace : (fetchAndDecodeImage env imageURL w).trace =
          (fetchWithRetry env imageURL 2 1000000000 w).trace ++ [.renderSVG imgData] := by
        simp [fetchAndDecodeImage, hremote, hfetch, hbody, hsvg, hr]
      have hval : (fetchAndDecodeImage env imageURL w).val = some img := by
        simp [fetchAndDecodeImage, hremote, hfetch, hbody, hsvg, hr]
      refine ⟨⟨fun _ => hcond, fun _ => ⟨imgData, by rw [htrace]; simp⟩⟩, ?_, fun _ => hval⟩
      intro d hd
      rw [htrace, List.mem_append] at hd
      rcases hd with hd | hd
      · exact absurd hd (hno d)
      · simpa using hd
  · have hcond : ¬ (strings.Contains resp.ContentType "image/svg+xml" = true ∨
        strings.HasSuffix (strings.ToLower imageURL) ".svg" = true) := by
      simpa [fetchAndDecodeImage.isSVG] using hsvg
    have hnone : ∀ d, Event.renderSVG d ∉ (fetchAndDecodeImage env imageURL w).trace := by
      intro d hd
      have hsvg2 : fetchAndDecodeImage.isSVG resp.ContentType imageURL = false := by
        simpa using hsvg
      simp only [fetchAndDecodeImage, hremote, hfetch, hbody, hsvg2, Bool.false_eq_true,
        if_false] at hd
      split at hd
      · simp only [List.mem_append, List.mem_singleton, reduceCtorEq, or_false] at hd
        exact hno d hd
      · split at hd
        · simp only [List.mem_append, List.mem_cons, List.mem_singleton, reduceCtorEq,
            List.not_mem_nil, or_false] at hd
          exact hno d hd
        · simp only [List.mem_append, List.mem_cons, List.mem_singleton, reduceCtorEq,
            List.not_mem_nil, or_false] at hd
          exact hno d hd
    refine ⟨⟨fun ⟨d, hd⟩ => absurd hd (hnone d), fun h => absurd h hcond⟩,
      fun d hd => absurd hd (hnone d), fun h => absurd h hcond⟩

/-- C7 (amended) at a concrete input: a URL without extension answered with
the content type `image/svg+xml`. -/
theorem fetchAndDecodeImage_vector_dispatch_witness :
    ((∃ d, Event.renderSVG d ∈
          (fetchAndDecodeImage demo.envSvg "https://example.com/logo" 0).trace) ↔
        (strings.Contains (Response.mk 200 "image/svg+xml" (some [60])).ContentType
            "image/svg+xml" = true ∨
          strings.HasSuffix (strings.ToLower "https://example.com/logo") ".svg" = true)) ∧
      (∀ d, Event.renderSVG d ∈
          (fetchAndDecodeImage demo.envSvg "https://example.com/logo" 0).trace → d = [60]) ∧
      ((strings.Contains (Response.mk 200 "image/svg+xml" (some [60])).ContentType
            "image/svg+xml" = true ∨
          strings.HasSuffix (strings.ToLower "https://example.com/logo") ".svg" = true) →
        (fetchAndDecodeImage demo.envSvg "https://example.com/logo" 0).val =
          demo.envSvg.renderSVGToImage [60]) :=
  fetchAndDecodeImage_vector_dispatch demo.envSvg "https://example.com/logo" 0
    ⟨200, "image/svg+xml", some [60]⟩ [60] (by decide) (by decide) rfl

/-- C7 (the claim as worded fails). The test looks at the whole URL text, not
at its path: `icon.svg?v=1`, served as `image/png`, has a path ending in `.svg`
and is not sent to the vector rasterizer; `a.png?name=.svg`, served as
`image/png`, has a path ending in `.png` and is sent to it. -/
theorem fetchAndDecodeImage_dispatch_not_by_path :
    (spec.isVector "image/png" "https://example.com/icon.svg?v=1" = true ∧
        (fetchWithRetry demo.envPng "https://example.com/icon.svg?v=1" 2 1000000000 0).val =
          (some ⟨200, "image/png", some []⟩, none) ∧
        (fetchAndDecodeImage demo.envPng "https://example.com/icon.svg?v=1" 0).trace =
          [.request "https://example.com/icon.svg?v=1" (.resp ⟨200, "image/png", some []⟩),
            .decodeConfig []]) ∧
      (spec.isVector "image/png" "https://example.com/a.png?name=.svg" = false ∧
        (fetchWithRetry demo.envPng "https://example.com/a.png?name=.svg" 2 1000000000 0).val =
          (some ⟨200, "image/png", some []⟩, none) ∧
        (fetchAndDecodeImage demo.envPng "https://example.com/a.png?name=.svg" 0).trace =
          [.request "https://example.com/a.png?name=.svg" (.resp ⟨200, "image/png", some []⟩),
            .renderSVG []]) := by
  refine ⟨⟨by decide, by decide, by decide⟩, ⟨by decide, by decide, by decide⟩⟩

end HelloFavicon
